import Mathlib

/-!
Verification of the `ginit` init supervisor against its design document.

The Rust sources are shallowly embedded: every syscall result is supplied by
an explicit "world" record, and each embedded function returns the sequence
of externally visible actions (syscall events, log lines) it performs, so
that ordering and pairing properties become statements about these traces.
-/

/- Error, signal and flag constants, from `src/linux.rs`. -/

def ESRCH : Int := 3

def EINTR : Int := 4

def ECHILD : Int := 10

def ENOMEM : Int := 12

def SIGTERM : Int := 15

/- Linux ABI constants used by `main.rs` and `seat.rs`; their declarations
live in the part of `linux.rs` not shown, with the standard kernel values. -/

def EAGAIN : Int := 11

def POLLIN : Nat := 1

def POLLERR : Nat := 8

def POLLNVAL : Nat := 32

def FD_CLOEXEC : Nat := 1

def SOCK_DGRAM : Nat := 2

def SOCK_CLOEXEC : Nat := 524288

/-! ## String helpers mirroring the Rust standard library

`unmount_all` iterates `lines.lines().rev()` and extracts
`line.split_ascii_whitespace().nth(5)`.  We re-implement `str::lines` and
`str::split_ascii_whitespace` structurally over `List Char` so that the
kernel can evaluate them on concrete inputs. -/

/-- Rust `u8::is_ascii_whitespace`: space, tab, line feed, form feed,
carriage return. -/
def isAsciiWs (c : Char) : Bool :=
  c = ' ' || c = '\t' || c = '\n' || c = Char.ofNat 12 || c = '\r'

/-- Split a character list at every separator, keeping empty pieces
(the semantics of splitting used by both `str::lines` and the first stage
of `str::split_ascii_whitespace`). -/
def splitListAux (p : Char → Bool) : List Char → List Char → List (List Char)
  | [], acc => [acc.reverse]
  | c :: cs, acc =>
    if p c then acc.reverse :: splitListAux p cs []
    else splitListAux p cs (c :: acc)

def splitList (p : Char → Bool) (s : List Char) : List (List Char) :=
  splitListAux p s []

/-- Rust `str::lines`: split on `'\n'`, drop one trailing empty line,
strip a trailing `'\r'` from each line. -/
def rustLines (s : String) : List String :=
  let parts := splitList (fun c => c = '\n') s.data
  let parts := if parts.getLast? = some [] then parts.dropLast else parts
  parts.map (fun l =>
    if l.getLast? = some '\r' then String.mk l.dropLast else String.mk l)

/-- Rust `str::split_ascii_whitespace`: split on ASCII whitespace and skip
empty pieces. -/
def splitAsciiWhitespace (s : String) : List String :=
  ((splitList isAsciiWs s.data).filter (fun t => t ≠ [])).map String.mk

/-! ## Shutdown model (`src/shutdown.rs`, `src/main.rs`)

A `ShutdownWorld` fixes the outcome of every syscall the shutdown path can
make; the embedded functions return the list of actions performed. -/

deriving instance DecidableEq for Except

/-- Externally visible actions of the shutdown path.  `logErr` carries a tag
identifying which `eprintln!`/`writeln!` site fired. -/
inductive SdEvent where
  /-- Rust `write_kernel_log()`: the "shutting down" banner plus the dmesg dump
  (`main.rs` lines 105-107), abstracted into one action. -/
  | dmesgLog : SdEvent
  /-- The `linux::sync()` call. -/
  | sync : SdEvent
  /-- A `libc::kill(pid, sig)` call. -/
  | kill (pid : Int) (sig : Int) : SdEvent
  /-- One `libc::wait(NULL)` call together with its result
  (`Ok pid` or `Err errno`). -/
  | waitAny (r : Except Int Int) : SdEvent
  /-- An `eprintln!` error report; the tag names the call site. -/
  | logErr (tag : Nat) : SdEvent
  /-- A `libc::umount(target)` call. -/
  | umount (target : String) : SdEvent
  /-- The `power_off()` call: `libc::reboot(libc::RB_POWER_OFF)`. -/
  | reboot : SdEvent
  deriving DecidableEq, Repr

/-- Outcomes of syscalls made during shutdown. -/
structure ShutdownWorld where
  /-- Result of `libc::kill(-1, libc::SIGTERM)`. -/
  killResult : Except Int Unit
  /-- Successive results of `libc::wait(ptr::null_mut())`. -/
  waitResults : List (Except Int Int)
  /-- Contents of `/proc/self/mounts`, or the errno of a failed open/read. -/
  mountsFile : Except Int String
  /-- Result of `libc::umount` for a given mount point string. -/
  umountResult : String → Except Int Unit

/-- How the reap loop of `end_all_processes` ended. -/
inductive ReapExit where
  /-- The `wait` call failed with `ECHILD`: no children are left. -/
  | noChildren : ReapExit
  /-- The `wait` call failed with an unexpected errno: break to avoid an error loop. -/
  | errBreak : ReapExit
  /-- The world supplied no further `wait` results (the real loop would
  still be blocked in `wait`). -/
  | fuelOut : ReapExit
  deriving DecidableEq, Repr

/-- The reap loop of `end_all_processes` (`shutdown.rs` lines 28-45):
`Ok` continues, `EINTR` retries, `ECHILD` terminates, anything else is
logged and breaks. -/
def reapLoop : List (Except Int Int) → List SdEvent × ReapExit
  | [] => ([], ReapExit.fuelOut)
  | r :: rest =>
    match r with
    | Except.ok pid =>
      let t := reapLoop rest
      (SdEvent.waitAny (Except.ok pid) :: t.1, t.2)
    | Except.error e =>
      if e = ECHILD then ([SdEvent.waitAny (Except.error e)], ReapExit.noChildren)
      else if e = EINTR then
        let t := reapLoop rest
        (SdEvent.waitAny (Except.error e) :: t.1, t.2)
      else ([SdEvent.waitAny (Except.error e), SdEvent.logErr 2], ReapExit.errBreak)

/-- Rust `shutdown::end_all_processes` (`shutdown.rs` lines 13-46): broadcast
`SIGTERM` to every process; `ESRCH` (no process found) is not an error but
returns at once, any other `kill` failure is logged and also returns
without waiting; on success the reap loop runs. -/
def end_all_processes (w : ShutdownWorld) : List SdEvent :=
  SdEvent.kill (-1) SIGTERM ::
    match w.killResult with
    | Except.error e => if e = ESRCH then [] else [SdEvent.logErr 1]
    | Except.ok _ => (reapLoop w.waitResults).1

/-- The per-line body of `unmount_all`'s loop (`shutdown.rs` lines 73-87):
take whitespace-separated field index 5 of the line; a missing field logs
"invalid format" and aborts the whole function; otherwise `umount` that
string and log any failure. -/
def umountLoop (w : ShutdownWorld) : List String → List SdEvent
  | [] => []
  | line :: rest =>
    match (splitAsciiWhitespace line)[5]? with
    | none => [SdEvent.logErr 3]
    | some mp =>
      SdEvent.umount mp ::
        match w.umountResult mp with
        | Except.error _ => SdEvent.logErr 4 :: umountLoop w rest
        | Except.ok _ => umountLoop w rest

/-- Rust `shutdown::unmount_all` (`shutdown.rs` lines 53-88): read
`/proc/self/mounts` (failure is logged and returns), then process its lines
in reverse order. -/
def unmount_all (w : ShutdownWorld) : List SdEvent :=
  match w.mountsFile with
  | Except.error _ => [SdEvent.logErr 5]
  | Except.ok content => umountLoop w (rustLines content).reverse

/-- Rust `graceful_shutdown` (`main.rs` lines 104-116): banner and kernel-log
dump, then `sync`, then `end_all_processes`, then `unmount_all`, then
`power_off`. -/
def graceful_shutdown (w : ShutdownWorld) : List SdEvent :=
  SdEvent.dmesgLog :: SdEvent.sync ::
    (end_all_processes w ++ unmount_all w ++ [SdEvent.reboot])

/- Event classifiers used to state ordering properties. -/

def isSyncEv : SdEvent → Bool
  | SdEvent.sync => true
  | _ => false

def isKillEv : SdEvent → Bool
  | SdEvent.kill _ _ => true
  | _ => false

def isWaitEv : SdEvent → Bool
  | SdEvent.waitAny _ => true
  | _ => false

def isUmountEv : SdEvent → Bool
  | SdEvent.umount _ => true
  | _ => false

def isRebootEv : SdEvent → Bool
  | SdEvent.reboot => true
  | _ => false

/-- Indices at which an event of the given class occurs in a trace. -/
def eventIdxs (p : SdEvent → Bool) (t : List SdEvent) : List Nat :=
  (t.enum.filter (fun x => p x.2)).map (fun x => x.1)

/-- The ordering asserted by the specification's shutdown algorithm: some
cache flush comes after every unmount operation and before every power-off
request. -/
def syncAfterUmountsBeforeReboot (t : List SdEvent) : Bool :=
  (eventIdxs isSyncEv t).any (fun i =>
    (eventIdxs isUmountEv t).all (fun j => j < i) &&
    (eventIdxs isRebootEv t).all (fun k => i < k))

/-- The mount-point sequence actually passed to `umount` by a run of
`unmount_all`. -/
def umountTargets (w : ShutdownWorld) : List String :=
  (unmount_all w).filterMap (fun e =>
    match e with
    | SdEvent.umount t => some t
    | _ => none)

/-! ## Event loop model (`run_event_loop`, `main.rs` lines 206-288)

One iteration of the steady-state loop is driven by a `PollWake` record
holding the results of the syscalls made during that wake-up. -/

/-- Syscall results for one iteration of the event loop. -/
structure PollWake where
  /-- Return value of `linux::poll(&mut fds, 500)`. -/
  pollResult : Int
  /-- Value of `fds[0].revents` (the `SIGCHLD` signalfd) after `poll`. -/
  sigRevents : Nat
  /-- Value of `fds[1].revents` (the seat-server socket) after `poll`. -/
  seatRevents : Nat
  /-- Successive return values of `wait4(-1, .., WNOHANG, ..)` during this
  wake-up: a pid if positive, `0` when no zombie is left, an error if
  negative. -/
  reaped : List Int
  /-- Result of `seat_server.process_incoming()` for this wake-up. -/
  seatResult : Except Int Unit

/-- Outcome of the zombie-reaping inner loop (`main.rs` lines 260-275). -/
inductive ReapScan where
  /-- A reaped pid equalled the UI child pid: `return` (session over). -/
  | uiDied : ReapScan
  /-- The `wait4` call returned `0` or an error: inner `break`, outer loop goes on. -/
  | ended : ReapScan
  /-- The world supplied no further `wait4` results. -/
  | fuelOut : ReapScan
  deriving DecidableEq, Repr

/-- The zombie-reaping inner loop: an error or `0` from `wait4` breaks, the
UI pid returns from the whole function, any other pid continues. -/
def reap_zombies (ui : Int) : List Int → ReapScan
  | [] => ReapScan.fuelOut
  | r :: rest =>
    if r < 0 then ReapScan.ended
    else if r = 0 then ReapScan.ended
    else if r = ui then ReapScan.uiDied
    else reap_zombies ui rest

/-- What one iteration of the event loop decides. -/
inductive StepOut where
  /-- Loop around and `poll` again. -/
  | next : StepOut
  /-- The `return` case: the UI process died, the session is over. -/
  | exitUiDied : StepOut
  /-- A `break`/`return` on a fatal condition (failed `poll`,
  `POLLERR`/`POLLNVAL` on either handle, seat-server failure). -/
  | exitError : StepOut
  deriving DecidableEq, Repr

/-- One iteration of `run_event_loop`'s `loop` (`main.rs` lines 206-288):
`poll` failure breaks; `POLLERR | POLLNVAL` on either fd breaks; if the
signalfd is readable it is drained (draining only logs, it cannot change
control flow) and zombies are reaped, returning if the UI pid is among
them; if the seat socket is readable, `process_incoming` runs and its
failure returns.  The trailing seat-socket block (`main.rs` lines
278-287) is factored out as `seat_branch`. -/
def seat_branch (w : PollWake) : StepOut :=
  if w.seatRevents &&& POLLIN ≠ 0 then
    match w.seatResult with
    | Except.error _ => StepOut.exitError
    | Except.ok _ => StepOut.next
  else StepOut.next

/-- One iteration of `run_event_loop`'s `loop` (`main.rs` lines 206-288),
continued: the reap phase runs first and its `return` short-circuits the
seat phase. -/
def event_loop_step (ui : Int) (w : PollWake) : StepOut :=
  if w.pollResult < 0 then StepOut.exitError
  else if w.sigRevents &&& (POLLERR ||| POLLNVAL) ≠ 0 then StepOut.exitError
  else if w.seatRevents &&& (POLLERR ||| POLLNVAL) ≠ 0 then StepOut.exitError
  else
    match if w.sigRevents &&& POLLIN ≠ 0 then reap_zombies ui w.reaped
          else ReapScan.ended with
    | ReapScan.uiDied => StepOut.exitUiDied
    | _ => seat_branch w

/-- How a whole run of the event loop ended. -/
inductive LoopEnd where
  /-- The function returned because the UI process died. -/
  | uiDied : LoopEnd
  /-- The function returned/broke on a fatal error. -/
  | errorExit : LoopEnd
  /-- The supplied schedule ran out with the loop still running. -/
  | running : LoopEnd
  deriving DecidableEq, Repr

/-- The event loop over a finite schedule of wake-ups. -/
def run_event_loop (ui : Int) : List PollWake → LoopEnd
  | [] => LoopEnd.running
  | w :: rest =>
    match event_loop_step ui w with
    | StepOut.next => run_event_loop ui rest
    | StepOut.exitUiDied => LoopEnd.uiDied
    | StepOut.exitError => LoopEnd.errorExit

/-! ## Seat server model (`seat.rs`)

`process_incoming_one` handles at most one datagram; a `SeatReq` record
fixes the datagram bytes and the results of the `open` and `sendmsg`
syscalls it may make. -/

/-- One `sendmsg` performed by the seat server: the payload byte count and
the file descriptors attached as `SCM_RIGHTS` ancillary data. -/
structure SeatMsg where
  payloadLen : Nat
  fds : List Int
  deriving DecidableEq, Repr

/-- Externally visible actions of `process_incoming_one`. -/
inductive SeatEv where
  /-- A `linux::open` call on the NUL-terminated path at the start of the buffer
  (`O_RDWR | O_NOCTTY | O_NOFOLLOW | O_CLOEXEC | O_NONBLOCK`). -/
  | openDev (path : List Nat) : SeatEv
  /-- A `sendmsg` call issuing a response datagram. -/
  | send (m : SeatMsg) : SeatEv
  /-- The `writeln!` report of a failed `sendmsg`. -/
  | logSendFail : SeatEv
  deriving DecidableEq, Repr

/-- Syscall outcomes for one `process_incoming_one` call. -/
structure SeatReq where
  /-- The `recvfrom` outcome: the datagram bytes written into the 48-byte
  buffer (`error e` stands for a return of `-e`). -/
  recv : Except Int (List Nat)
  /-- Result of the device `open`: a descriptor or an errno. -/
  openRes : Except Int Nat
  /-- Result of the response `sendmsg`. -/
  sendRes : Except Int Unit

/-- The NUL-terminated string the kernel reads from the zero-initialised
48-byte buffer holding `data`. -/
def pathOf (data : List Nat) : List Nat :=
  data.takeWhile (fun b => b ≠ 0)

/-- The trailing `if let Err = sendmsg` report present in both response
branches (`seat.rs` lines 115-121 and 136-142). -/
def sendFailLog (r : Except Int Unit) : List SeatEv :=
  match r with
  | Except.error _ => [SeatEv.logSendFail]
  | Except.ok _ => []

/-- Rust `SeatServer::process_incoming_one` (`seat.rs` lines 61-144).  Returns
the Rust function's `Result<bool, i32>` and the trace of actions:
`-EAGAIN` from `recvfrom` means no more datagrams (`Ok(false)`), any other
`recvfrom` failure is propagated; an empty datagram or one whose last byte
is not NUL is skipped (`Ok(true)`); otherwise the path is opened, and
exactly one response is sent: on failed open a bare 1-byte datagram, on
success the same 1-byte datagram with the opened descriptor attached. -/
def process_incoming_one (r : SeatReq) : Except Int Bool × List SeatEv :=
  match r.recv with
  | Except.error e =>
    if e = EAGAIN then (Except.ok false, [])
    else (Except.error (-e), [])
  | Except.ok data =>
    if data.length = 0 then (Except.ok true, [])
    else if data.getLast? ≠ some 0 then (Except.ok true, [])
    else
      match r.openRes with
      | Except.error _ =>
        (Except.ok true,
          SeatEv.openDev (pathOf data) :: SeatEv.send ⟨1, []⟩ ::
            sendFailLog r.sendRes)
      | Except.ok fd =>
        (Except.ok true,
          SeatEv.openDev (pathOf data) :: SeatEv.send ⟨1, [Int.ofNat fd]⟩ ::
            sendFailLog r.sendRes)

/-- How `process_incoming`'s drain loop ended. -/
inductive DrainEnd where
  /-- The `Ok(false)` case: `recvfrom` reported `EAGAIN`, everything is drained. -/
  | drained : DrainEnd
  /-- An `Err(e)` was propagated to the caller. -/
  | failed (e : Int) : DrainEnd
  /-- The schedule ran out while the loop would have kept reading. -/
  | fuelOut : DrainEnd
  deriving DecidableEq, Repr

/-- Rust `SeatServer::process_incoming` (`seat.rs` lines 146-149):
`while process_incoming_one()? {}`. -/
def process_incoming : List SeatReq → DrainEnd × List SeatEv
  | [] => (DrainEnd.fuelOut, [])
  | r :: rest =>
    match process_incoming_one r with
    | (Except.ok true, evs) =>
      let t := process_incoming rest
      (t.1, evs ++ t.2)
    | (Except.ok false, evs) => (DrainEnd.drained, evs)
    | (Except.error e, evs) => (DrainEnd.failed e, evs)

/-- The response datagrams issued in a trace. -/
def sendsOf (t : List SeatEv) : List SeatMsg :=
  t.filterMap (fun e =>
    match e with
    | SeatEv.send m => some m
    | _ => none)

/-- The device opens attempted in a trace. -/
def opensOf (t : List SeatEv) : List (List Nat) :=
  t.filterMap (fun e =>
    match e with
    | SeatEv.openDev p => some p
    | _ => none)

/-! ## Process spawner child model (`linux.rs` lines 352-410)

`spawn_helper` runs in the child created by `clone(CLONE_VM | CLONE_VFORK)`.
A `SpawnWorld` fixes the pre-exec hook's verdict and the `execve` outcome. -/

/-- Actions observable inside the spawned child. -/
inductive ChildEv where
  /-- The call `(arg.pre_exec)(arg.pre_exec_data)`. -/
  | preExecCall : ChildEv
  /-- The `execve(arg.filename, arg.argv, arg.envp)` call. -/
  | execveCall : ChildEv
  /-- The `writeln!` report of a failed `execve`. -/
  | logExecveFail : ChildEv
  /-- A `linux::exit(code)` call. -/
  | exitCall (code : Int) : ChildEv
  deriving DecidableEq, Repr

/-- The final state of the child. -/
inductive ChildOutcome where
  /-- The `execve` call succeeded: the process image was replaced. -/
  | imageReplaced : ChildOutcome
  /-- The child called `exit(code)`. -/
  | exited (code : Int) : ChildOutcome
  deriving DecidableEq, Repr

/-- Outcomes of the calls `spawn_helper` can make.  A non-negative
`execveRes` stands for success, in which case `execve` never returns. -/
structure SpawnWorld where
  /-- What the caller-supplied pre-exec hook returns. -/
  preExecOk : Bool
  /-- Return value of `execve` if it fails (negative), or any non-negative
  value to stand for a successful image replacement. -/
  execveRes : Int

/-- Rust `spawn_helper` (`linux.rs` lines 360-370): run the pre-exec hook; on
`true` call `execve`, logging a failure; in every case that still has a
process image, `exit(1)`. -/
def spawn_helper (w : SpawnWorld) : List ChildEv × ChildOutcome :=
  if w.preExecOk then
    if w.execveRes < 0 then
      ([ChildEv.preExecCall, ChildEv.execveCall, ChildEv.logExecveFail,
        ChildEv.exitCall 1],
       ChildOutcome.exited 1)
    else ([ChildEv.preExecCall, ChildEv.execveCall], ChildOutcome.imageReplaced)
  else ([ChildEv.preExecCall, ChildEv.exitCall 1], ChildOutcome.exited 1)

/-! ## Handle (Fd) model (`linux.rs` lines 319-328)

`Fd` owns one descriptor; its `Drop` implementation is the only place the
descriptor is closed. -/

/-- Actions of the `Fd` drop glue. -/
inductive FdEv where
  /-- The `close(self.0)` call. -/
  | closeCall (fd : Nat) : FdEv
  /-- The `writeln!` report of a failed `close`. -/
  | logCloseFail : FdEv
  deriving DecidableEq, Repr

/-- Rust `impl Drop for Fd` (`linux.rs` lines 321-328): close the descriptor;
a failure is only written to stderr.  The return type carries no error:
a failed close cannot propagate. -/
def fd_drop (fd : Nat) (closeRes : Int) : List FdEv :=
  FdEv.closeCall fd ::
    (if closeRes < 0 then [FdEv.logCloseFail] else [])

/-- The control-flow paths Rust's affine ownership discipline permits for a
scope owning one `Fd` value: the value may be used in place, moved to a new
owner (whose path continues), and exactly one final scope exit — normal
return, early return, or unwind — runs `Drop::drop`.  Paths that drop twice
or never drop are rejected by the Rust compiler and therefore absent from
this type. -/
inductive FdPath where
  /-- The owning scope exits here: `Drop::drop` runs. -/
  | dropAtExit : FdPath
  /-- The descriptor is used (read, passed by reference); ownership stays. -/
  | useThen (rest : FdPath) : FdPath
  /-- Ownership moves to another scope, whose path continues. -/
  | moveThen (rest : FdPath) : FdPath

/-- The close/log actions performed over an entire ownership path of one
`Fd` value. -/
def fd_lifecycle (fd : Nat) (closeRes : Int) : FdPath → List FdEv
  | FdPath.dropAtExit => fd_drop fd closeRes
  | FdPath.useThen p => fd_lifecycle fd closeRes p
  | FdPath.moveThen p => fd_lifecycle fd closeRes p

/-- The close calls in an `Fd` action trace. -/
def closesOf (t : List FdEv) : List Nat :=
  t.filterMap (fun e =>
    match e with
    | FdEv.closeCall fd => some fd
    | _ => none)

/-! ## `SeatServer::new` model (`seat.rs` lines 42-59)

The socketpair is created with `SOCK_CLOEXEC`, then `FD_CLOEXEC` is added
(not removed) to the second endpoint via `F_GETFD`/`F_SETFD`.  Flag words
follow the kernel: a descriptor from `socketpair` carries `FD_CLOEXEC` iff
the requested type had `SOCK_CLOEXEC` set. -/

/-- Kernel semantics of `socketpair`: the initial `F_GETFD` flag word of
each new descriptor. -/
def socketpairFlags (sockType : Nat) : Nat :=
  if sockType &&& SOCK_CLOEXEC ≠ 0 then FD_CLOEXEC else 0

/-- Kernel semantics of `dup2`: the duplicate's `F_GETFD` flag word has
`FD_CLOEXEC` clear. -/
def dup2Flags : Nat := 0

/-- Kernel semantics of `execve`: a descriptor survives the exec iff its
`FD_CLOEXEC` flag is clear. -/
def survivesExec (flags : Nat) : Bool :=
  flags &&& FD_CLOEXEC = 0

/-- Which of the three syscalls in `SeatServer::new` fail, if any. -/
structure SeatNewWorld where
  /-- Errno of `create_socket_pair`, when it fails. -/
  socketpairErr : Option Int
  /-- Negative return of `fcntl(pair.1, F_GETFD)`, when it fails. -/
  fcntlGetErr : Option Int
  /-- Negative return of `fcntl(pair.1, F_SETFD, new_flags)`, when it
  fails. -/
  fcntlSetErr : Option Int

/-- Rust `SeatServer::new` (`seat.rs` lines 42-59), tracking the `F_GETFD` flag
words of the two endpoints: `create_socket_pair(AF_UNIX,
SOCK_DGRAM | SOCK_CLOEXEC, 0)`, then `new_flags = ret | FD_CLOEXEC` is
written back to `pair.1`.  On success it returns the flag words of
`(server endpoint pair.0, compositor endpoint pair.1)`. -/
def SeatServer_new (w : SeatNewWorld) : Except Int (Nat × Nat) :=
  match w.socketpairErr with
  | some e => Except.error e
  | none =>
    let pairFlags := socketpairFlags (SOCK_DGRAM ||| SOCK_CLOEXEC)
    match w.fcntlGetErr with
    | some e => Except.error e
    | none =>
      let newFlags := pairFlags ||| FD_CLOEXEC
      match w.fcntlSetErr with
      | some e => Except.error e
      | none => Except.ok (pairFlags, newFlags)

/-! ## Shape lemmas about the shutdown traces -/

/-- Every event the reap loop emits is a `wait` call or its error report. -/
theorem reapLoop_shape (rs : List (Except Int Int)) :
    ∀ e ∈ (reapLoop rs).1, isWaitEv e = true ∨ e = SdEvent.logErr 2 := by
  induction rs with
  | nil => simp [reapLoop]
  | cons r rest ih =>
    cases r with
    | ok p =>
      intro e he
      simp only [reapLoop] at he
      rcases List.mem_cons.mp he with h | h
      · exact Or.inl (by simp [h, isWaitEv])
      · exact ih e h
    | error ec =>
      intro e he
      simp only [reapLoop] at he
      split at he <;> [skip; split at he]
      · rcases List.mem_cons.mp he with h | h
        · exact Or.inl (by simp [h, isWaitEv])
        · simp at h
      · rcases List.mem_cons.mp he with h | h
        · exact Or.inl (by simp [h, isWaitEv])
        · exact ih e h
      · rcases List.mem_cons.mp he with h | h
        · exact Or.inl (by simp [h, isWaitEv])
        · rcases List.mem_cons.mp h with h2 | h2
          · exact Or.inr h2
          · simp at h2

/-- Every event the unmount loop emits is an `umount` call or an error
report. -/
theorem umountLoop_shape (w : ShutdownWorld) (ls : List String) :
    ∀ e ∈ umountLoop w ls, isUmountEv e = true ∨ ∃ t, e = SdEvent.logErr t := by
  induction ls with
  | nil => simp [umountLoop]
  | cons line rest ih =>
    intro e he
    simp only [umountLoop] at he
    cases hf : (splitAsciiWhitespace line)[5]? with
    | none =>
      rw [hf] at he
      simp at he
      exact Or.inr ⟨3, he⟩
    | some mp =>
      rw [hf] at he
      rcases List.mem_cons.mp he with h | h
      · exact Or.inl (by simp [h, isUmountEv])
      · cases hu : w.umountResult mp with
        | error eu =>
          rw [hu] at h
          rcases List.mem_cons.mp h with h2 | h2
          · exact Or.inr ⟨4, h2⟩
          · exact ih e h2
        | ok u =>
          rw [hu] at h
          exact ih e h

/-- Every event `unmount_all` emits is an `umount` call or an error
report. -/
theorem unmount_all_shape (w : ShutdownWorld) :
    ∀ e ∈ unmount_all w, isUmountEv e = true ∨ ∃ t, e = SdEvent.logErr t := by
  intro e he
  simp only [unmount_all] at he
  cases hm : w.mountsFile with
  | error em =>
    rw [hm] at he
    simp at he
    exact Or.inr ⟨5, he⟩
  | ok content =>
    rw [hm] at he
    exact umountLoop_shape w (rustLines content).reverse e he

/-- Within `end_all_processes`, the five shutdown step classes reduce to
the single broadcast followed by the reap loop's `wait` calls: its trace is
the `kill` head and a tail of `wait` calls and error reports. -/
theorem end_all_filter_steps (w : ShutdownWorld) :
    (end_all_processes w).filter
        (fun e => isSyncEv e || isKillEv e || isWaitEv e || isUmountEv e ||
          isRebootEv e)
      = SdEvent.kill (-1) SIGTERM :: (end_all_processes w).filter isWaitEv := by
  obtain ⟨T, hAT, hTP⟩ :
      ∃ T, end_all_processes w = SdEvent.kill (-1) SIGTERM :: T
        ∧ ∀ e ∈ T, (isSyncEv e || isKillEv e || isWaitEv e || isUmountEv e ||
            isRebootEv e) = isWaitEv e := by
    cases hk : w.killResult with
    | error ec =>
      by_cases hes : ec = ESRCH
      · exact ⟨[], by simp [end_all_processes, hk, hes], by simp⟩
      · refine ⟨[SdEvent.logErr 1], by simp [end_all_processes, hk, hes], ?_⟩
        intro e he
        simp at he
        subst he
        simp [isSyncEv, isKillEv, isWaitEv, isUmountEv, isRebootEv]
    | ok u =>
      refine ⟨(reapLoop w.waitResults).1, by simp [end_all_processes, hk], ?_⟩
      intro e he
      rcases reapLoop_shape w.waitResults e he with h | h
      · cases e <;>
          simp_all [isWaitEv, isSyncEv, isKillEv, isUmountEv, isRebootEv]
      · subst h
        simp [isSyncEv, isKillEv, isWaitEv, isUmountEv, isRebootEv]
  rw [hAT,
    List.filter_cons_of_pos (by simp [isSyncEv, isKillEv]),
    List.filter_cons_of_neg (by simp [isWaitEv]),
    List.filter_congr hTP]

/-- Within `unmount_all`, the five shutdown step classes reduce to its
unmount operations: its trace holds only unmounts and error reports. -/
theorem unmount_all_filter_steps (w : ShutdownWorld) :
    (unmount_all w).filter
        (fun e => isSyncEv e || isKillEv e || isWaitEv e || isUmountEv e ||
          isRebootEv e)
      = (unmount_all w).filter isUmountEv := by
  refine List.filter_congr ?_
  intro e he
  rcases unmount_all_shape w e he with h | ⟨t, h⟩
  · cases e <;> simp_all [isUmountEv, isSyncEv, isKillEv, isWaitEv, isRebootEv]
  · subst h
    simp [isSyncEv, isKillEv, isWaitEv, isUmountEv, isRebootEv]

/-! ## Concrete shutdown fixtures -/

/-- A `/proc/self/mounts` image whose mounts, in mount order, are
`/dev`, `/dev/pts`, `/run`, `/proc`. -/
def mountsFixture : String :=
  "none /dev devtmpfs rw 0 0\nnone /dev/pts devpts rw 0 0\nnone /run tmpfs rw 0 0\nnone /proc proc rw 0 0\n"

/-- A run in which every shutdown syscall succeeds: the broadcast reaches
some process, the single `wait` reports no children, and the mount table is
`mountsFixture`. -/
def shutdownRun : ShutdownWorld :=
  { killResult := Except.ok ()
    waitResults := [Except.error ECHILD]
    mountsFile := Except.ok mountsFixture
    umountResult := fun _ => Except.ok () }

/-- A run in which no other process exists: the broadcast fails with
`ESRCH` (and the mount table is unreadable, which is irrelevant here). -/
def noProcessWorld : ShutdownWorld :=
  { killResult := Except.error ESRCH
    waitResults := []
    mountsFile := Except.error 2
    umountResult := fun _ => Except.ok () }

/-- Claim C1 (amended): every run of `graceful_shutdown` performs the
shutdown steps in the strict order flush, termination broadcast, reap
loop, unmounts, power-off: the subsequence of flush, `kill`, `wait`,
`umount` and power-off events is exactly the single flush, then the single
`SIGTERM` broadcast, then all of the reap loop's `wait` calls, then all of
the unmount operations, then the single power-off; and the power-off
request is the last action of the entire trace.  In particular the flush
precedes every unmount instead of following them. -/
theorem graceful_shutdown_order (w : ShutdownWorld) :
    (graceful_shutdown w).filter
        (fun e => isSyncEv e || isKillEv e || isWaitEv e || isUmountEv e ||
          isRebootEv e)
      = SdEvent.sync :: SdEvent.kill (-1) SIGTERM ::
          ((end_all_processes w).filter isWaitEv ++
            ((unmount_all w).filter isUmountEv ++ [SdEvent.reboot]))
    ∧ (graceful_shutdown w).getLast? = some SdEvent.reboot := by
  constructor
  · rw [graceful_shutdown,
      List.filter_cons_of_neg
        (by simp [isSyncEv, isKillEv, isWaitEv, isUmountEv, isRebootEv]),
      List.filter_cons_of_pos (by simp [isSyncEv]),
      List.filter_append, List.filter_append, end_all_filter_steps w,
      unmount_all_filter_steps w,
      show List.filter
          (fun e => isSyncEv e || isKillEv e || isWaitEv e || isUmountEv e ||
            isRebootEv e) [SdEvent.reboot] = [SdEvent.reboot] from rfl]
    simp
  · rw [show graceful_shutdown w
        = (SdEvent.dmesgLog :: SdEvent.sync ::
            (end_all_processes w ++ unmount_all w)) ++ [SdEvent.reboot] by
          simp [graceful_shutdown],
      List.getLast?_concat]

/-- Claim C1 counterexample: in the concrete successful run `shutdownRun`
no filesystem-cache flush is issued after the unmount operations and before
the power-off request — the only flush precedes the termination
broadcast. -/
theorem graceful_shutdown_no_late_flush :
    syncAfterUmountsBeforeReboot (graceful_shutdown shutdownRun) = false := by
  decide

/-- Claim C5: evaluated on a mount table whose mount order is
`/dev`, `/dev/pts`, `/run`, `/proc`, the unmount sequence issued by
`unmount_all` is `["0", "0", "0", "0"]` — field index 5 of each line, the
fsck pass column — and not the reverse mount-point sequence
`["/proc", "/run", "/dev/pts", "/dev"]`, which is what extracting field
index 1 (the mount point) of the same reversed lines would give. -/
theorem unmount_targets_wrong_field :
    umountTargets shutdownRun = ["0", "0", "0", "0"]
    ∧ umountTargets shutdownRun ≠ ["/proc", "/run", "/dev/pts", "/dev"]
    ∧ (rustLines mountsFixture).reverse.filterMap
        (fun l => (splitAsciiWhitespace l)[1]?)
      = ["/proc", "/run", "/dev/pts", "/dev"] := by
  refine ⟨by decide, by decide, by decide⟩

/-- A `wait` result that keeps the reap loop going: a reaped pid, or the
retryable `EINTR`. -/
def isBenignWait : Except Int Int → Bool
  | Except.ok _ => true
  | Except.error e => e = EINTR

/-- Claim C8 (amended): (1) when the broadcast reports `ESRCH` (no process
exists) `end_all_processes` treats it as success — nothing is logged — and
returns at once, never calling `wait`, so its whole trace is the single
broadcast; (2) within the reap loop, after any run of reaped pids and
retried `EINTR`s, an `ECHILD` terminates the loop with "no children";
(3) any other error is logged and forces a break. -/
theorem end_all_processes_reap_behaviour :
    (∀ w : ShutdownWorld, w.killResult = Except.error ESRCH →
        end_all_processes w = [SdEvent.kill (-1) SIGTERM])
    ∧ (∀ pre rest : List (Except Int Int), (∀ r ∈ pre, isBenignWait r = true) →
        reapLoop (pre ++ Except.error ECHILD :: rest)
          = (pre.map SdEvent.waitAny ++ [SdEvent.waitAny (Except.error ECHILD)],
             ReapExit.noChildren))
    ∧ (∀ e : Int, ∀ pre rest : List (Except Int Int), e ≠ ECHILD → e ≠ EINTR →
        (∀ r ∈ pre, isBenignWait r = true) →
        reapLoop (pre ++ Except.error e :: rest)
          = (pre.map SdEvent.waitAny ++
               [SdEvent.waitAny (Except.error e), SdEvent.logErr 2],
             ReapExit.errBreak)) := by
  refine ⟨?_, ?_, ?_⟩
  · intro w h
    simp [end_all_processes, h]
  · intro pre rest
    induction pre with
    | nil =>
      intro _
      simp [reapLoop]
    | cons r pre ih =>
      intro h
      have hr := h r (List.mem_cons_self r pre)
      have hpre : ∀ x ∈ pre, isBenignWait x = true :=
        fun x hx => h x (List.mem_cons_of_mem r hx)
      cases r with
      | ok p => simp [reapLoop, ih hpre]
      | error ec =>
        have hec : ec = EINTR := by simpa [isBenignWait] using hr
        subst hec
        simp only [List.cons_append, reapLoop]
        rw [if_neg (by decide : ¬ (EINTR = ECHILD)), if_pos (by simp)]
        simp only [List.append_eq]
        rw [ih hpre]
        simp
  · intro e pre rest hc hi
    induction pre with
    | nil =>
      intro _
      simp [reapLoop, hc, hi]
    | cons r pre ih =>
      intro h
      have hr := h r (List.mem_cons_self r pre)
      have hpre : ∀ x ∈ pre, isBenignWait x = true :=
        fun x hx => h x (List.mem_cons_of_mem r hx)
      cases r with
      | ok p => simp [reapLoop, ih hpre]
      | error ec =>
        have hec : ec = EINTR := by simpa [isBenignWait] using hr
        subst hec
        simp only [List.cons_append, reapLoop]
        rw [if_neg (by decide : ¬ (EINTR = ECHILD)), if_pos (by simp)]
        simp only [List.append_eq]
        rw [ih hpre]
        simp

/-- Witness for `end_all_processes_reap_behaviour` at concrete inputs: the
no-process world, a loop seeing a pid then `EINTR` then `ECHILD`, and a
loop hitting `ENOMEM`. -/
theorem end_all_processes_reap_behaviour_witness :
    end_all_processes noProcessWorld = [SdEvent.kill (-1) SIGTERM]
    ∧ reapLoop [Except.ok 5, Except.error EINTR, Except.error ECHILD]
      = ([SdEvent.waitAny (Except.ok 5), SdEvent.waitAny (Except.error EINTR),
          SdEvent.waitAny (Except.error ECHILD)], ReapExit.noChildren)
    ∧ reapLoop [Except.error ENOMEM]
      = ([SdEvent.waitAny (Except.error ENOMEM), SdEvent.logErr 2],
         ReapExit.errBreak) := by
  refine ⟨end_all_processes_reap_behaviour.1 noProcessWorld rfl, ?_, ?_⟩
  · have h := end_all_processes_reap_behaviour.2.1
      [Except.ok 5, Except.error EINTR] [] (by decide)
    simpa using h
  · have h := end_all_processes_reap_behaviour.2.2 ENOMEM [] []
      (by decide) (by decide) (by decide)
    simpa using h

/-- Claim C8 counterexample: in the no-process world the code never enters
the reap loop at all — the whole trace is the lone broadcast, with no
`wait` call — so the reap loop does not "terminate immediately with no
children": no `wait` returning `ECHILD` ever happens. -/
theorem end_all_processes_skips_reap_loop :
    end_all_processes noProcessWorld = [SdEvent.kill (-1) SIGTERM]
    ∧ ¬ ((end_all_processes noProcessWorld).filter isWaitEv
          = [SdEvent.waitAny (Except.error ECHILD)]) := by
  refine ⟨by decide, by decide⟩

/-- The seat-socket block never reports the UI death. -/
theorem seat_branch_ne_uiDied (w : PollWake) :
    seat_branch w ≠ StepOut.exitUiDied := by
  unfold seat_branch
  by_cases h : w.seatRevents &&& POLLIN ≠ 0
  · rw [if_pos h]
    cases w.seatResult <;> simp
  · rw [if_neg h]
    simp

/-- If the reap scan reports the UI death, the UI pid was among the reaped
results. -/
theorem reap_zombies_uiDied_mem (ui : Int) (l : List Int) :
    reap_zombies ui l = ReapScan.uiDied → ui ∈ l := by
  induction l with
  | nil => simp [reap_zombies]
  | cons r rest ih =>
    intro h
    unfold reap_zombies at h
    split_ifs at h with h1 h2 h3
    · simp [h3]
    · exact List.mem_cons_of_mem r (ih h)

/-- Claim C2 (amended): the event loop's `return` on a dead UI process
happens only when the UI pid is among the reaped results, and a wake-up
with a successful `poll`, no error condition on either handle, a
successful seat drain, and only non-UI pids reaped leaves the loop
running. -/
theorem event_loop_session_end (ui : Int) (w : PollWake) :
    (event_loop_step ui w = StepOut.exitUiDied → ui ∈ w.reaped)
    ∧ (0 ≤ w.pollResult →
        w.sigRevents &&& (POLLERR ||| POLLNVAL) = 0 →
        w.seatRevents &&& (POLLERR ||| POLLNVAL) = 0 →
        (w.seatRevents &&& POLLIN ≠ 0 → w.seatResult = Except.ok ()) →
        (∀ r ∈ w.reaped, r ≠ ui) →
        event_loop_step ui w = StepOut.next) := by
  constructor
  · intro h
    unfold event_loop_step at h
    split_ifs at h with h1 h2 h3 h4
    · cases hm : reap_zombies ui w.reaped with
      | uiDied => exact reap_zombies_uiDied_mem ui w.reaped hm
      | ended => rw [hm] at h; exact absurd h (seat_branch_ne_uiDied w)
      | fuelOut => rw [hm] at h; exact absurd h (seat_branch_ne_uiDied w)
    · exact absurd h (seat_branch_ne_uiDied w)
  · intro hp hs1 hs2 hseat hne
    unfold event_loop_step
    rw [if_neg (by omega), if_neg (by simp [hs1]), if_neg (by simp [hs2])]
    have hscan : ∀ l : List Int, (∀ r ∈ l, r ≠ ui) →
        reap_zombies ui l ≠ ReapScan.uiDied := by
      intro l
      induction l with
      | nil => intro _; simp [reap_zombies]
      | cons r rest ih =>
        intro hl
        unfold reap_zombies
        split_ifs with h1 h2 h3
        · simp
        · simp
        · exact absurd h3 (hl r (List.mem_cons_self r rest))
        · exact ih fun x hx => hl x (List.mem_cons_of_mem r hx)
    have hnextseat : seat_branch w = StepOut.next := by
      unfold seat_branch
      by_cases h4 : w.seatRevents &&& POLLIN ≠ 0
      · rw [if_pos h4, hseat h4]
      · rw [if_neg h4]
    by_cases h4 : w.sigRevents &&& POLLIN ≠ 0
    · rw [if_pos h4]
      cases hm : reap_zombies ui w.reaped with
      | uiDied => exact absurd hm (hscan w.reaped hne)
      | ended => exact hnextseat
      | fuelOut => exact hnextseat
    · rw [if_neg h4]
      exact hnextseat

/-- A wake-up whose `poll` call failed: nothing was reaped. -/
def pollFailWake : PollWake :=
  { pollResult := -1
    sigRevents := 0
    seatRevents := 0
    reaped := []
    seatResult := Except.ok () }

/-- A quiet wake-up for UI pid 7: `poll` succeeded, the signalfd is
readable, the reaped pids are 3 and 9 followed by `0` (no zombie left),
and the seat socket is idle. -/
def quietWake : PollWake :=
  { pollResult := 1
    sigRevents := 1
    seatRevents := 0
    reaped := [3, 9, 0]
    seatResult := Except.ok () }

/-- Witness for `event_loop_session_end`: on the quiet wake-up with UI pid
7 the loop keeps running. -/
theorem event_loop_session_end_witness :
    event_loop_step 7 quietWake = StepOut.next :=
  (event_loop_session_end 7 quietWake).2 (by decide) (by decide) (by decide)
    (by decide) (by decide)

/-- Claim C2 counterexample: a wake-up in which `poll` fails terminates the
event loop although no child at all — a fortiori not the UI pid — was
reaped, so "terminates only if a reaped child id equals the UI pid" is
false of the code. -/
theorem event_loop_error_exit :
    run_event_loop 7 [pollFailWake] = LoopEnd.errorExit
    ∧ pollFailWake.reaped = [] := by
  refine ⟨by decide, by decide⟩

/-- The handle list the response carries, as a function of the `open`
result. -/
def grantFds (o : Except Int Nat) : List Int :=
  match o with
  | Except.error _ => []
  | Except.ok fd => [Int.ofNat fd]

/-- On a well-formed datagram, `process_incoming_one` opens the path and
issues exactly one response, then reports `Ok(true)`. -/
theorem process_one_wf (r : SeatReq) (data : List Nat)
    (hrecv : r.recv = Except.ok data) (hlen : ¬ data.length = 0)
    (hlast : data.getLast? = some 0) :
    process_incoming_one r
      = (Except.ok true,
         SeatEv.openDev (pathOf data) :: SeatEv.send ⟨1, grantFds r.openRes⟩ ::
           sendFailLog r.sendRes) := by
  simp only [process_incoming_one, hrecv]
  rw [if_neg hlen, if_neg (by simp [hlast])]
  cases r.openRes <;> rfl

/-- Claim C3: for every well-formed request datagram (non-empty,
NUL-terminated within the 48-byte buffer) the broker sends exactly one
response datagram and reports `Ok(true)`, so the drain loop goes on to the
next datagram only after that response; the whole drain trace is this
request's trace followed by the rest; and when the open fails the one
response carries no handle. -/
theorem seat_request_response_pairing (r : SeatReq) (data : List Nat)
    (hrecv : r.recv = Except.ok data) (hlen : ¬ data.length = 0)
    (hlast : data.getLast? = some 0) :
    (process_incoming_one r).1 = Except.ok true
    ∧ (sendsOf (process_incoming_one r).2).length = 1
    ∧ (∀ e, r.openRes = Except.error e →
        sendsOf (process_incoming_one r).2 = [⟨1, []⟩])
    ∧ ∀ rest, process_incoming (r :: rest)
        = ((process_incoming rest).1,
           (process_incoming_one r).2 ++ (process_incoming rest).2) := by
  have hone := process_one_wf r data hrecv hlen hlast
  refine ⟨by rw [hone], ?_, ?_, ?_⟩
  · rw [hone]
    cases r.sendRes <;> simp [sendsOf, sendFailLog]
  · intro e he
    rw [hone, he]
    cases r.sendRes <;> simp [sendsOf, sendFailLog, grantFds]
  · intro rest
    simp only [process_incoming, hone]

/-- A well-formed request for a path the broker fails to open, with a
successful send: bytes of `"/dev\0"`. -/
def deniedReq : SeatReq :=
  { recv := Except.ok [47, 100, 101, 118, 0]
    openRes := Except.error 2
    sendRes := Except.ok () }

/-- Claim C4 counterexample: the denied response the broker actually sends
is a one-byte datagram with no handle attached — its payload is not
zero-length as claimed (and as the module comment in `seat.rs` says). -/
theorem seat_denied_nonempty_payload :
    sendsOf (process_incoming_one deniedReq).2 = [⟨1, []⟩]
    ∧ ¬ (∀ m ∈ sendsOf (process_incoming_one deniedReq).2,
          m.payloadLen = 0) := by
  refine ⟨by decide, by decide⟩

/-- Claim C4 (amended): both response kinds carry the same one-byte
payload — "We cannot send anciliary data without actual data" — and they
differ only in the ancillary handles: a denied response attaches no
handle, a granted response attaches exactly the one opened descriptor. -/
theorem seat_response_shapes (r : SeatReq) (data : List Nat)
    (hrecv : r.recv = Except.ok data) (hlen : ¬ data.length = 0)
    (hlast : data.getLast? = some 0) :
    (∀ e, r.openRes = Except.error e →
      sendsOf (process_incoming_one r).2 = [⟨1, []⟩])
    ∧ (∀ fd, r.openRes = Except.ok fd →
      sendsOf (process_incoming_one r).2 = [⟨1, [Int.ofNat fd]⟩]) := by
  have hone := process_one_wf r data hrecv hlen hlast
  constructor
  · intro e he
    rw [hone, he]
    cases r.sendRes <;> simp [sendsOf, sendFailLog, grantFds]
  · intro fd hf
    rw [hone, hf]
    cases r.sendRes <;> simp [sendsOf, sendFailLog, grantFds]

/-- A request whose open succeeds, for the witness: bytes of `"/a\0"`,
descriptor 6 opened, send successful. -/
def grantedReq : SeatReq :=
  { recv := Except.ok [47, 97, 0]
    openRes := Except.ok 6
    sendRes := Except.ok () }

/-- Witness for `seat_request_response_pairing` on the concrete denied
request. -/
theorem seat_request_response_pairing_witness :
    (process_incoming_one deniedReq).1 = Except.ok true
    ∧ (sendsOf (process_incoming_one deniedReq).2).length = 1
    ∧ sendsOf (process_incoming_one deniedReq).2 = [⟨1, []⟩] := by
  have h := seat_request_response_pairing deniedReq [47, 100, 101, 118, 0]
    rfl (by decide) (by decide)
  exact ⟨h.1, h.2.1, h.2.2.1 2 rfl⟩

/-- Witness for `seat_response_shapes` on the concrete denied and granted
requests. -/
theorem seat_response_shapes_witness :
    sendsOf (process_incoming_one deniedReq).2 = [⟨1, []⟩]
    ∧ sendsOf (process_incoming_one grantedReq).2 = [⟨1, [6]⟩] := by
  refine ⟨(seat_response_shapes deniedReq [47, 100, 101, 118, 0]
      rfl (by decide) (by decide)).1 2 rfl, ?_⟩
  have h := (seat_response_shapes grantedReq [47, 97, 0]
      rfl (by decide) (by decide)).2 6 rfl
  simpa using h

/-- Claim C9: a malformed datagram — empty, or without a NUL byte anywhere
in its bytes (hence in the 48-byte buffer bound) — produces no open, no
response and no log, the call reports `Ok(true)`, and the drain loop
continues with the remaining datagrams unchanged. -/
theorem seat_malformed_skipped (r : SeatReq) (data : List Nat)
    (hrecv : r.recv = Except.ok data)
    (hmal : data = [] ∨ ¬ (0 ∈ data)) :
    process_incoming_one r = (Except.ok true, [])
    ∧ ∀ rest, process_incoming (r :: rest)
        = ((process_incoming rest).1, (process_incoming rest).2) := by
  have hone : process_incoming_one r = (Except.ok true, []) := by
    simp only [process_incoming_one, hrecv]
    rcases hmal with h | h
    · subst h
      simp
    · have hlast : ¬ data.getLast? = some 0 := by
        intro hg
        rcases List.mem_getLast?_eq_getLast hg with ⟨hne, hx⟩
        exact h (hx ▸ List.getLast_mem hne)
      by_cases hlen : data.length = 0
      · rw [if_pos hlen]
      · rw [if_neg hlen, if_pos hlast]
  refine ⟨hone, ?_⟩
  intro rest
  simp only [process_incoming, hone]
  simp

/-- Witness for `seat_malformed_skipped` on a datagram with no NUL
terminator. -/
theorem seat_malformed_skipped_witness :
    process_incoming_one
        { recv := Except.ok [47, 100], openRes := Except.ok 3,
          sendRes := Except.ok () }
      = (Except.ok true, []) :=
  (seat_malformed_skipped
    { recv := Except.ok [47, 100], openRes := Except.ok 3,
      sendRes := Except.ok () }
    [47, 100] rfl (Or.inr (by decide))).1

/-- Claim C6: when the pre-exec hook reports failure, the child's whole
trace is the hook call followed directly by `exit(1)` — it terminates
immediately with the non-zero status 1, its image is never replaced, and
no `execve` call appears in the trace. -/
theorem spawn_pre_exec_failure (w : SpawnWorld) (h : w.preExecOk = false) :
    spawn_helper w = ([ChildEv.preExecCall, ChildEv.exitCall 1],
      ChildOutcome.exited 1)
    ∧ ChildEv.execveCall ∉ (spawn_helper w).1
    ∧ ∃ c, (spawn_helper w).2 = ChildOutcome.exited c ∧ c ≠ 0 := by
  have hs : spawn_helper w
      = ([ChildEv.preExecCall, ChildEv.exitCall 1], ChildOutcome.exited 1) := by
    simp [spawn_helper, h]
  refine ⟨hs, ?_, 1, by rw [hs], by decide⟩
  rw [hs]
  decide

/-- Witness for `spawn_pre_exec_failure` at the concrete world whose hook
fails while `execve` would have succeeded. -/
theorem spawn_pre_exec_failure_witness :
    spawn_helper { preExecOk := false, execveRes := 0 }
      = ([ChildEv.preExecCall, ChildEv.exitCall 1], ChildOutcome.exited 1) :=
  (spawn_pre_exec_failure { preExecOk := false, execveRes := 0 } rfl).1

/-- Claim C7: along every ownership path of an `Fd` value — uses, moves to
other owners, and the one final scope exit that Rust's affine ownership
discipline runs `Drop` at — the wrapped descriptor is closed exactly once;
the drop glue's trace is that single `close` either alone (close
succeeded) or followed only by a log line (close failed), and its type
returns no error, so a failed close can neither abort nor propagate. -/
theorem fd_closed_exactly_once (fd : Nat) (closeRes : Int) (p : FdPath) :
    closesOf (fd_lifecycle fd closeRes p) = [fd]
    ∧ (fd_lifecycle fd closeRes p = [FdEv.closeCall fd]
       ∨ fd_lifecycle fd closeRes p = [FdEv.closeCall fd, FdEv.logCloseFail])
    ∧ (0 ≤ closeRes → fd_lifecycle fd closeRes p = [FdEv.closeCall fd])
    ∧ (closeRes < 0 →
        fd_lifecycle fd closeRes p = [FdEv.closeCall fd, FdEv.logCloseFail]) := by
  induction p with
  | dropAtExit =>
    by_cases h : closeRes < 0
    · exact ⟨by simp [fd_lifecycle, fd_drop, closesOf, h],
        Or.inr (by simp [fd_lifecycle, fd_drop, h]),
        fun hge => absurd h (by omega),
        fun _ => by simp [fd_lifecycle, fd_drop, h]⟩
    · exact ⟨by simp [fd_lifecycle, fd_drop, closesOf, h],
        Or.inl (by simp [fd_lifecycle, fd_drop, h]),
        fun _ => by simp [fd_lifecycle, fd_drop, h],
        fun hlt => absurd hlt h⟩
  | useThen q ih => simpa [fd_lifecycle] using ih
  | moveThen q ih => simpa [fd_lifecycle] using ih

/-- Witness for `fd_closed_exactly_once`: descriptor 5, failing close,
along a use-move-drop path. -/
theorem fd_closed_exactly_once_witness :
    closesOf (fd_lifecycle 5 (-1) (FdPath.useThen (FdPath.moveThen
        FdPath.dropAtExit))) = [5]
    ∧ fd_lifecycle 5 (-1) (FdPath.useThen (FdPath.moveThen FdPath.dropAtExit))
      = [FdEv.closeCall 5, FdEv.logCloseFail] :=
  ⟨(fd_closed_exactly_once 5 (-1)
      (FdPath.useThen (FdPath.moveThen FdPath.dropAtExit))).1,
   (fd_closed_exactly_once 5 (-1)
      (FdPath.useThen (FdPath.moveThen FdPath.dropAtExit))).2.2.2 (by decide)⟩

/-- Claim C10: whenever `SeatServer::new` succeeds, both returned endpoints
carry `FD_CLOEXEC` (the pair is created with `SOCK_CLOEXEC`); the
compositor endpoint's final flag word is its creation flags with
`FD_CLOEXEC` or-ed in — the `fcntl` adds the bit and can remove none — so
neither endpoint survives an `execve` as such, while a copy made by `dup2`
(whose flag word starts clear) does. -/
theorem seat_server_new_cloexec (w : SeatNewWorld) (sf cf : Nat)
    (h : SeatServer_new w = Except.ok (sf, cf)) :
    sf &&& FD_CLOEXEC ≠ 0
    ∧ cf &&& FD_CLOEXEC ≠ 0
    ∧ cf = socketpairFlags (SOCK_DGRAM ||| SOCK_CLOEXEC) ||| FD_CLOEXEC
    ∧ (∀ b, socketpairFlags (SOCK_DGRAM ||| SOCK_CLOEXEC) &&& b ≠ 0 →
        cf &&& b ≠ 0)
    ∧ survivesExec sf = false
    ∧ survivesExec cf = false
    ∧ survivesExec dup2Flags = true := by
  have hpair : SeatServer_new w = Except.ok (sf, cf) →
      sf = 1 ∧ cf = 1 := by
    unfold SeatServer_new
    cases w.socketpairErr with
    | some e => intro h2; cases h2
    | none =>
      cases w.fcntlGetErr with
      | some e => intro h2; cases h2
      | none =>
        cases w.fcntlSetErr with
        | some e => intro h2; cases h2
        | none =>
          intro h2
          have := (Except.ok.injEq _ _).mp h2
          have h3 : sf = 1 := by
            have := congrArg Prod.fst this.symm
            simpa [socketpairFlags, SOCK_DGRAM, SOCK_CLOEXEC, FD_CLOEXEC]
              using this
          have h4 : cf = 1 := by
            have := congrArg Prod.snd this.symm
            simpa [socketpairFlags, SOCK_DGRAM, SOCK_CLOEXEC, FD_CLOEXEC]
              using this
          exact ⟨h3, h4⟩

  obtain ⟨h3, h4⟩ := hpair h
  subst h3
  subst h4
  refine ⟨by decide, by decide, by decide, ?_, by decide, by decide, by decide⟩
  intro b hb
  simpa [socketpairFlags, SOCK_DGRAM, SOCK_CLOEXEC, FD_CLOEXEC] using hb

/-- Witness for `seat_server_new_cloexec`: the world where all three
syscalls succeed. -/
theorem seat_server_new_cloexec_witness :
    (1 : Nat) &&& FD_CLOEXEC ≠ 0
    ∧ survivesExec 1 = false
    ∧ survivesExec dup2Flags = true :=
  ⟨(seat_server_new_cloexec
      { socketpairErr := none, fcntlGetErr := none, fcntlSetErr := none }
      1 1 rfl).1,
   (seat_server_new_cloexec
      { socketpairErr := none, fcntlGetErr := none, fcntlSetErr := none }
      1 1 rfl).2.2.2.2.1,
   (seat_server_new_cloexec
      { socketpairErr := none, fcntlGetErr := none, fcntlSetErr := none }
      1 1 rfl).2.2.2.2.2.2⟩
